import Mathlib

/-!
Shallow embedding of the GeoBase launcher (GeoBaseMain.py): the query
pipeline (trep / exact / near / closest / fuzzy stages chained over a
scored-key stream), the geocode resolver, the result limiter, and the two
renderers (colored table and quiet pipe mode).

The external data store (GeoBases.GeoBaseModule) is out of scope for the
launcher and is represented by a record of abstract operations (the Store
structure below); the launcher's own logic is translated from the source.
Machine floats are modelled as rationals; strings handled by the renderers
are modelled at the level of their decoded characters (the source decodes
UTF-8 before truncating and re-encodes afterwards).
-/

set_option autoImplicit false

namespace GeoBaseMain

/-- A scored key: the (h, k) pairs flowing through the pipeline
(score first, key second), as produced by enumerate or the store searches. -/
abbrev SK : Type := ℚ × String

/-- A termcolor color: foreground name and optional background name
(the attrs list in the source is always empty and is omitted). -/
abbrev PyColor : Type := String × Option String

/-- Error kinds of the error and warn helpers of GeoBaseMain.py; each of
these prints a message on stderr and exits with status 1. -/
inductive ErrKind : Type where
  | trep_support
  | geocode_support
  | base
  | property
  | field
  | geocode_format
  | geocode_unknown
  /-- the warn-then-exit path of scan_coords for a key absent from the store -/
  | unknown_key
deriving DecidableEq

/-- Result of a program fragment that may print to stderr and exit(1). -/
inductive Outcome (α : Type) : Type where
  | ok (a : α)
  | err (e : ErrKind)
deriving DecidableEq

/-- Sequencing of possibly-exiting fragments. -/
def Outcome.bind {α β : Type} : Outcome α → (α → Outcome β) → Outcome β
  | Outcome.ok a, f => f a
  | Outcome.err e, _ => Outcome.err e

/-- One row of the table renderer: the field label row of the transposed
table, its color, its rendered label cell and one rendered cell per result. -/
structure Row : Type where
  field : String
  col : PyColor
  label : List Char
  cells : List (List Char)
deriving DecidableEq

/-- The rendered output of a run: either the table mode rows (none when
the no-elements message is printed instead) or the quiet mode lines. -/
inductive Rendered : Type where
  | table (rows : Option (List Row))
  | quiet (lines : List String)
deriving DecidableEq

/-- The external data store collaborator (GeoBases.GeoBaseModule), reduced
to the interface the launcher consumes: field list, key enumeration,
membership, field lookup, coordinate lookup, capability flags and the five
search operations. Search operations take an optional from_keys
restriction. -/
structure Store : Type where
  fields : List String
  keys : List String
  contains : String → Bool
  get : String → String → String
  getLocation : String → Option (ℚ × ℚ)
  hasTrepSupport : Bool
  hasGeoSupport : Bool
  trepGet : String → String → Option (List String) → List SK
  getKeysWhere : String → String → Option (List String) → List String
  findNearPoint : (ℚ × ℚ) → ℚ → Bool → Option (List String) → List SK
  findClosestFromPoint : (ℚ × ℚ) → ℕ → Bool → Option (List String) → List SK
  fuzzyGet : String → String → ℚ → Option (List String) → List SK

/-- The parsed command-line arguments consumed by main (the argparse
result; flag parsing itself is an external collaborator, so a run is a
function of this record — the record retains no flag order). The --base,
--update and --verbose flags only select the store, trigger the external
updater, or add chatter, and are not part of the modelled state. -/
structure Args : Type where
  keys : List String := []
  trep : Option (List String) := none
  trep_format : String := "S"
  exact : Option String := none
  exact_property : String := "__id__"
  near : Option String := none
  near_limit : ℚ := 50
  closest : Option String := none
  closest_limit : ℕ := 10
  fuzzy : Option String := none
  fuzzy_property : String := "name"
  fuzzy_limit : ℚ := 85/100
  without_grid : Bool := false
  quiet : Bool := false
  omits : List String := []
  shows : List String := []
  limit : Option ℤ := none

/-! ### Terminal size and rotating colors -/

/-- getTermSize: the stty probe yields (rows, cols); when the probe is
unavailable the fixed fallback (80, 160) is used. -/
def getTermSize (probe : Option (ℕ × ℕ)) : ℕ × ℕ :=
  probe.getD (80, 160)

/-- RotatingColors._availables. -/
def rc_avail : List PyColor := [("cyan", none), ("white", some "on_grey")]

/-- RotatingColors.next: increase the current index, wrapping at the
palette length. -/
def rc_next (c : ℕ) : ℕ :=
  if c + 1 = rc_avail.length then 0 else c + 1

/-- RotatingColors.get: the palette entry at the current index. -/
def rc_get (c : ℕ) : PyColor :=
  rc_avail.getD c ("cyan", none)

/-- RotatingColors.getEmph. -/
def rc_emph : PyColor := ("white", some "on_blue")

/-- RotatingColors.getHeader. -/
def rc_header : PyColor := ("red", none)

/-! ### fixed width rendering -/

/-- The width adaptation of display: min(40, max(25, term_cols / (n+1)))
(the source divides by float(n+1) and truncates with int; for the
terminal-sized values involved this is exact floor division). -/
def display_lim (term_cols n : ℕ) : ℕ :=
  min 40 (max 25 (term_cols / (n + 1)))

/-- The truncation choice of display: names are not truncated when there
is only one result. -/
def display_truncate (n lim : ℕ) : Option ℕ :=
  if n = 1 then none else some lim

/-- fixed_width on the decoded characters of s: a missing truncation
becomes 1000, the decoded string is cut at truncate characters, then
left-justified to lim characters with trailing spaces (the percent -lim s
printer) before re-encoding. The termcolor wrapping is carried separately
as a Row color. -/
def fixed_width (s : List Char) (lim : ℕ) (truncate : Option ℕ) : List Char :=
  let t := truncate.getD 1000
  let s2 := s.take t
  s2 ++ List.replicate (lim - s2.length) ' '

/-- Helper for format3: decimal digits of a value below 1000, zero padded
to three places. -/
def pad3 (n : ℕ) : String :=
  if n < 10 then "00" ++ toString n
  else if n < 100 then "0" ++ toString n
  else toString n

/-- Model of the Python percent .3f formatting of a score: the magnitude
is scaled to thousandths and rounded half up (written on the numerator
and denominator so it evaluates by kernel reduction; float round-half-even
differences at exact half-thousandths are not exercised by the launcher's
scores). -/
def format3 (q : ℚ) : String :=
  let sgn := if q.num < 0 then "-" else ""
  let m : ℕ := (2000 * q.num.natAbs + q.den) / (2 * q.den)
  sgn ++ toString (m / 1000) ++ "." ++ pad3 (m % 1000)

/-! ### The two renderers -/

/-- The field loop of display: one row per shown, non-omitted field; the
ref pseudo-field is drawn in the header style with the formatted scores,
other fields in the emphasis style when important, otherwise in the
current rotating color; the rotation advances once per displayed field. -/
def display_rows (g : Store) (lot : List SK) (omits : List String)
    (shows : List String) (important : List String) (c : ℕ)
    (lim : ℕ) (tr : Option ℕ) : List Row :=
  match shows with
  | [] => []
  | f :: rest =>
    if f ∈ omits then
      display_rows g lot omits rest important c lim tr
    else
      let col := if f ∈ important then rc_emph else rc_get c
      let row :=
        if f = "__ref__" then
          { field := f, col := rc_header,
            label := fixed_width f.toList lim tr,
            cells := lot.map (fun hk => fixed_width (format3 hk.1).toList lim tr) }
        else
          { field := f, col := col,
            label := fixed_width f.toList lim tr,
            cells := lot.map (fun hk => fixed_width (g.get hk.2 f).toList lim tr) }
      row :: display_rows g lot omits rest important (rc_next c) lim tr

/-- display: the colored table renderer. An empty result list prints the
no-elements message (modelled as none); otherwise the shown fields default
to the ref pseudo-field followed by the store fields, the width is adapted
to the terminal and the result count, and truncation is disabled for a
single result. -/
def display (g : Store) (lot : List SK) (omits : List String)
    (shows : List String) (important : List String) (term_cols : ℕ) :
    Option (List Row) :=
  if lot = [] then none
  else
    let shows2 := if shows = [] then "__ref__" :: g.fields else shows
    let n := lot.length
    let lim := display_lim term_cols n
    let tr := display_truncate n lim
    some (display_rows g lot omits shows2 important 0 lim tr)

/-- display_quiet: one caret-joined line per store-present result, fields
in the shown order (defaulting to the ref pseudo-field followed by the
store fields), omitted fields skipped, the ref pseudo-field rendered as
the three-decimal score. -/
def display_quiet (g : Store) (lot : List SK) (omits : List String)
    (shows : List String) : List String :=
  let shows2 := if shows = [] then "__ref__" :: g.fields else shows
  (lot.filter (fun hk => g.contains hk.2)).map (fun hk =>
    String.intercalate "^" (shows2.filterMap (fun f =>
      if f ∈ omits then none
      else if f = "__ref__" then some (format3 hk.1)
      else some (g.get hk.2 f))))

/-- clamp as the specification states it: clamp(x, lo, hi). This is the
spec-side definition, to be compared with display_lim from the source. -/
def clampSpec (x lo hi : ℕ) : ℕ :=
  max lo (min hi x)

/-! ### Geocode resolver -/

/-- Python strip of the parenthesis characters: leading and trailing
characters from the set { ( , ) } are removed. -/
def py_strip_parens (s : String) : String :=
  let p := fun c => c = '(' || c = ')'
  String.mk ((((s.toList.dropWhile p).reverse.dropWhile p).reverse))

/-- Python split on a comma, on decoded characters: every comma starts a
new token, and the empty input yields one empty token. -/
def split_commas (cs : List Char) : List (List Char) :=
  match cs with
  | [] => [[]]
  | c :: rest =>
    let r := split_commas rest
    if c = ',' then [] :: r
    else
      match r with
      | [] => [[c]]
      | t :: ts => (c :: t) :: ts

/-- The comma tokens of a geocode argument after stripping parentheses. -/
def geo_tokens (s : String) : List String :=
  (split_commas (py_strip_parens s).toList).map String.mk

/-- Value of a list of decimal digit characters. -/
def digs_val (cs : List Char) : ℚ :=
  cs.foldl (fun acc c => acc * 10 + ((c.toNat - '0'.toNat : ℕ) : ℚ)) 0

/-- Modelled from the spec: the resolver calls the Python built-in float()
on every comma token (GeoBases float parsing is external to the launcher);
we model plain decimal literals with an optional sign and surrounding
blanks, the forms exercised by geocode input (exponents and the inf/nan
forms are not modelled and are rejected). -/
def pyFloat (s : String) : Option ℚ :=
  let cs0 := ((s.toList.dropWhile (fun c => c = ' ')).reverse.dropWhile
    (fun c => c = ' ')).reverse
  let sc : ℚ × List Char :=
    match cs0 with
    | '-' :: rest => (-1, rest)
    | '+' :: rest => (1, rest)
    | cs => (1, cs)
  let ip := sc.2.takeWhile Char.isDigit
  let rest := sc.2.dropWhile Char.isDigit
  match rest with
  | [] => if ip.isEmpty then none else some (sc.1 * digs_val ip)
  | '.' :: fp =>
    if fp.all Char.isDigit && !(ip.isEmpty && fp.isEmpty) then
      some (sc.1 * (digs_val ip + digs_val fp / (10 : ℚ) ^ fp.length))
    else none
  | _ => none

/-- The tuple(float(l) for l in tokens) comprehension: all tokens parse or
the whole attempt raises ValueError. -/
def parse_all (ts : List String) : Option (List ℚ) :=
  match ts with
  | [] => some []
  | t :: rest =>
    match pyFloat t, parse_all rest with
    | some q, some qs => some (q :: qs)
    | _, _ => none

/-- scan_coords: interpret the argument as either a coordinate pair or a
key. When every comma token parses as a float, exactly two tokens are
required (otherwise the geocode format error exits); when parsing raises
ValueError the argument is treated as a key: an absent key warns and
exits, a present key without a coordinate is the unknown geocode error,
otherwise its stored coordinate is returned. -/
def scan_coords (g : Store) (u_input : String) : Outcome (ℚ × ℚ) :=
  match parse_all (geo_tokens u_input) with
  | some coords =>
    match coords with
    | [la, ln] => Outcome.ok (la, ln)
    | _ => Outcome.err ErrKind.geocode_format
  | none =>
    if g.contains u_input = false then Outcome.err ErrKind.unknown_key
    else
      match g.getLocation u_input with
      | none => Outcome.err ErrKind.geocode_unknown
      | some c => Outcome.ok c

/-! ### Pipeline -/

/-- enumerate over a key list: Python enumerate yields (index, key) pairs,
so the initial stream scores every key with its position. -/
def py_enum (l : List String) : List SK :=
  l.enum.map (fun p => ((p.1 : ℚ), p.2))

/-- ex_keys: keeping only keys in intermediate search (scores discarded). -/
def ex_keys (res : Option (List SK)) : Option (List String) :=
  match res with
  | none => none
  | some r => some (r.map Prod.snd)

/-- Strict lexicographic order on scored keys, the order Python sorted
uses on (score, key) tuples. -/
def pair_lt (x y : SK) : Bool :=
  decide (x.1 < y.1) || (decide (x.1 = y.1) && decide (x.2 < y.2))

/-- Stable insertion step for sort_pairs. -/
def insert_pair (x : SK) : List SK → List SK
  | [] => [x]
  | y :: ys => if pair_lt x y then x :: y :: ys else y :: insert_pair x ys

/-- Model of Python sorted on the (distance, key) tuples of the near
stage: stable ascending lexicographic sort. -/
def sort_pairs (l : List SK) : List SK :=
  l.foldr insert_pair []

/-- The trep stage taken alone: when enabled, it queries the text-search
engine restricted to the keys of the incoming stream. -/
def stage_trep (g : Store) (a : Args) (res : List SK) : List SK :=
  match a.trep with
  | none => res
  | some ts => g.trepGet (String.intercalate " " ts) a.trep_format (ex_keys (some res))

/-- The exact stage taken alone: when enabled, it enumerates the keys
whose property equals the argument, restricted to the incoming keys. -/
def stage_exact (g : Store) (a : Args) (res : List SK) : List SK :=
  match a.exact with
  | none => res
  | some v => py_enum (g.getKeysWhere a.exact_property v (ex_keys (some res)))

/-- The near stage taken alone: when enabled, it resolves the geocode
argument (which may exit) and sorts the radius search results, restricted
to the incoming keys. -/
def stage_near (g : Store) (a : Args) (res : List SK) : Outcome (List SK) :=
  match a.near with
  | none => Outcome.ok res
  | some s =>
    Outcome.bind (scan_coords g s) (fun coords =>
      Outcome.ok (sort_pairs (g.findNearPoint coords a.near_limit
        (!a.without_grid) (ex_keys (some res)))))

/-- The closest stage taken alone: when enabled, it resolves the geocode
argument (which may exit) and lists the nearest-N search results,
restricted to the incoming keys. -/
def stage_closest (g : Store) (a : Args) (res : List SK) : Outcome (List SK) :=
  match a.closest with
  | none => Outcome.ok res
  | some s =>
    Outcome.bind (scan_coords g s) (fun coords =>
      Outcome.ok (g.findClosestFromPoint coords a.closest_limit
        (!a.without_grid) (ex_keys (some res))))

/-- The fuzzy stage taken alone: when enabled, it queries the fuzzy
matcher restricted to the incoming keys. -/
def stage_fuzzy (g : Store) (a : Args) (res : List SK) : List SK :=
  match a.fuzzy with
  | none => res
  | some q => g.fuzzyGet q a.fuzzy_property a.fuzzy_limit (ex_keys (some res))

/-- The condition chain of main (the res reassignments between the
argument checks and the display section), written as in the source: trep,
then exact, then near, then closest, then fuzzy, each guarded by its flag
and consuming ex_keys of the current stream. -/
def run_stages (g : Store) (a : Args) (res0 : List SK) : Outcome (List SK) :=
  let r1 :=
    match a.trep with
    | none => res0
    | some ts => g.trepGet (String.intercalate " " ts) a.trep_format (ex_keys (some res0))
  let r2 :=
    match a.exact with
    | none => r1
    | some v => py_enum (g.getKeysWhere a.exact_property v (ex_keys (some r1)))
  let step3 : Outcome (List SK) :=
    match a.near with
    | none => Outcome.ok r2
    | some s =>
      Outcome.bind (scan_coords g s) (fun coords =>
        Outcome.ok (sort_pairs (g.findNearPoint coords a.near_limit
          (!a.without_grid) (ex_keys (some r2)))))
  Outcome.bind step3 (fun r3 =>
    let step4 : Outcome (List SK) :=
      match a.closest with
      | none => Outcome.ok r3
      | some s =>
        Outcome.bind (scan_coords g s) (fun coords =>
          Outcome.ok (g.findClosestFromPoint coords a.closest_limit
            (!a.without_grid) (ex_keys (some r3))))
    Outcome.bind step4 (fun r4 =>
      Outcome.ok (match a.fuzzy with
        | none => r4
        | some q => g.fuzzyGet q a.fuzzy_property a.fuzzy_limit (ex_keys (some r4)))))

/-! ### Limiter, emphasis set and main -/

/-- The limit in force: an explicit --limit always applies; without one
the default is no limit in quiet mode and 4 otherwise. -/
def eff_limit (a : Args) : Option ℤ :=
  match a.limit with
  | none => if a.quiet then none else some 4
  | some n => some n

/-- Python list slicing l[:n]: a nonnegative bound keeps the first n
entries, a negative bound drops that many entries from the end. -/
def py_take (n : ℤ) (l : List SK) : List SK :=
  if 0 ≤ n then l.take n.toNat else l.take (l.length - (-n).toNat)

/-- Keeping only limit first results (res = res[:limit] when a limit is
in force). -/
def apply_limit (lim : Option ℤ) (l : List SK) : List SK :=
  match lim with
  | none => l
  | some n => py_take n l

/-- The emphasized rows of main: the synthetic identifier, plus the exact
property when --exact is given, plus the fuzzy property when --fuzzy is
given (a set in the source; modelled as a list with membership). -/
def important_of (a : Args) : List String :=
  "__id__" ::
    ((if a.exact.isSome then [a.exact_property] else []) ++
     (if a.fuzzy.isSome then [a.fuzzy_property] else []))

/-- The initial stream of main: keys read from stdin when input is piped,
else the positional keys when given, else the full store enumeration —
each enumerated into (index, key) pairs. -/
def start_res (g : Store) (a : Args) (stdin_keys : Option (List String)) : List SK :=
  match stdin_keys with
  | some toks => py_enum toks
  | none => if a.keys.isEmpty then py_enum g.keys else py_enum a.keys

/-- The failing section of main: missing trep support, missing geocode
support, unknown exact/fuzzy property, unknown shown/omitted field — in
that order; each exits before any stage runs. (The base-name check and
the --update path concern store selection and the external updater and
are not modelled.) -/
def validate (g : Store) (a : Args) : Option ErrKind :=
  if a.trep.isSome && !g.hasTrepSupport then some ErrKind.trep_support
  else if (a.near.isSome || a.closest.isSome) && !g.hasGeoSupport then
    some ErrKind.geocode_support
  else if a.exact.isSome && !(decide (a.exact_property ∈ g.fields)) then
    some ErrKind.property
  else if a.fuzzy.isSome && !(decide (a.fuzzy_property ∈ g.fields)) then
    some ErrKind.property
  else if !((a.shows ++ a.omits).all (fun f => decide (f ∈ "__ref__" :: g.fields))) then
    some ErrKind.field
  else none

/-- main after argument parsing: validation, initial stream, stage chain,
limiter, unknown-key warning and removal, then one of the two renderers.
Verbose progress chatter and timing prints are not part of the rendered
result. -/
def mainRun (g : Store) (a : Args) (stdin_keys : Option (List String))
    (probe : Option (ℕ × ℕ)) : Outcome Rendered :=
  match validate g a with
  | some e => Outcome.err e
  | none =>
    Outcome.bind (run_stages g a (start_res g a stdin_keys)) (fun res =>
      let res1 := apply_limit (eff_limit a) res
      let res2 := res1.filter (fun hk => g.contains hk.2)
      if a.quiet then
        Outcome.ok (Rendered.quiet (display_quiet g res2 a.omits a.shows))
      else
        Outcome.ok (Rendered.table (display g res2 a.omits a.shows
          (important_of a) (getTermSize probe).2)))

/-! ### Concrete fixtures for evaluating the model -/

/-- A small concrete store with the two Paris airports, used to evaluate
the model on the worked example of the specification. -/
def g1 : Store where
  fields := ["__id__", "name"]
  keys := ["ORY", "CDG"]
  contains := fun k => k = "ORY" || k = "CDG"
  get := fun k f =>
    if f = "name" then (if k = "ORY" then "Orly" else if k = "CDG" then "Roissy" else "")
    else if f = "__id__" then k else ""
  getLocation := fun _ => none
  hasTrepSupport := false
  hasGeoSupport := true
  trepGet := fun _ _ _ => []
  getKeysWhere := fun _ _ _ => []
  findNearPoint := fun _ _ _ _ => []
  findClosestFromPoint := fun _ _ _ _ => []
  fuzzyGet := fun _ _ _ _ => []

/-- The no-filter quiet run of the specification example: keys ORY and
CDG, quiet mode, only the name field shown. -/
def a1 : Args := { keys := ["ORY", "CDG"], quiet := true, shows := ["name"] }

/-- The same run also showing the ref pseudo-field. -/
def a1r : Args := { keys := ["ORY", "CDG"], quiet := true, shows := ["__ref__", "name"] }

/-- A quiet run whose near argument is a key absent from the store. -/
def a2 : Args := { keys := ["ORY", "CDG"], quiet := true, near := some "NOPE" }

/-- A quiet run whose near argument is a three-token geocode. -/
def a3 : Args := { keys := ["ORY"], quiet := true, near := some "48.85,2.35,1" }

/-- A name value of 1001 characters, one more than the sentinel used by
fixed_width when truncation is switched off. -/
def longName : String := String.mk (List.replicate 1001 'a')

/-- A store holding a single record whose name has 1001 characters. -/
def g2 : Store where
  fields := ["name"]
  keys := ["K"]
  contains := fun k => k = "K"
  get := fun _ f => if f = "name" then longName else ""
  getLocation := fun _ => none
  hasTrepSupport := false
  hasGeoSupport := false
  trepGet := fun _ _ _ => []
  getKeysWhere := fun _ _ _ => []
  findNearPoint := fun _ _ _ _ => []
  findClosestFromPoint := fun _ _ _ _ => []
  fuzzyGet := fun _ _ _ _ => []

/-- The emphasized identifier row produced when displaying the ORY record
with only the identifier field shown. -/
def row9 : Row where
  field := "__id__"
  col := rc_emph
  label := fixed_width "__id__".toList 25 none
  cells := [fixed_width "ORY".toList 25 none]

/-! ### Helper lemmas -/

/-- A successful tuple comprehension yields one float per token. -/
theorem parse_all_length (ts : List String) (qs : List ℚ)
    (h : parse_all ts = some qs) : qs.length = ts.length := by
  induction ts generalizing qs with
  | nil => simp [parse_all] at h; simp [h]
  | cons t rest ih =>
    simp only [parse_all] at h
    cases hp : pyFloat t with
    | none => rw [hp] at h; exact absurd h (by simp)
    | some q =>
      rw [hp] at h
      cases hr : parse_all rest with
      | none => rw [hr] at h; exact absurd h (by simp)
      | some qs2 =>
        rw [hr] at h
        cases h
        simp [ih qs2 hr]

/-- The rotating palette never yields the emphasis style. -/
theorem rc_get_ne_emph (c : ℕ) : rc_get c ≠ rc_emph := by
  match c with
  | 0 => decide
  | 1 => decide
  | n + 2 =>
    have h : rc_avail.length ≤ n + 2 := by simp [rc_avail]
    rw [rc_get, List.getD_eq_default _ _ h]
    decide

/-- The field labels of the table rows are the shown fields with the
omitted ones removed, whatever the rotation state. -/
theorem display_rows_fields (g : Store) (lot : List SK)
    (omits shows imp : List String) (c lim : ℕ) (tr : Option ℕ) :
    (display_rows g lot omits shows imp c lim tr).map Row.field
      = shows.filter (fun f => decide (f ∉ omits)) := by
  induction shows generalizing c with
  | nil => simp [display_rows]
  | cons f rest ih =>
    by_cases hf : f ∈ omits
    · simp [display_rows, hf, List.filter_cons, ih]
    · by_cases hr : f = "__ref__"
      · subst hr
        simp [display_rows, hf, List.filter_cons, ih]
      · simp [display_rows, hf, hr, List.filter_cons, ih]

/-- A table row drawn in the emphasis style names an important field. -/
theorem display_rows_emph (g : Store) (lot : List SK)
    (omits shows imp : List String) (c lim : ℕ) (tr : Option ℕ) (row : Row)
    (hrow : row ∈ display_rows g lot omits shows imp c lim tr)
    (hcol : row.col = rc_emph) : row.field ∈ imp := by
  induction shows generalizing c with
  | nil => simp [display_rows] at hrow
  | cons f rest ih =>
    by_cases hf : f ∈ omits
    · rw [display_rows, if_pos hf] at hrow
      exact ih _ hrow
    · rw [display_rows, if_neg hf] at hrow
      simp only [List.mem_cons] at hrow
      rcases hrow with hrow | hrow
      · by_cases hr : f = "__ref__"
        · rw [if_pos hr] at hrow
          subst hrow
          exact absurd hcol (by simp [rc_header, rc_emph])
        · rw [if_neg hr] at hrow
          subst hrow
          by_cases himp : f ∈ imp
          · exact himp
          · rw [if_neg himp] at hcol
            exact absurd hcol (rc_get_ne_emph c)
      · exact ih _ hrow

/-- The quiet line loop over the shown fields equals a map over the
non-omitted fields. -/
theorem quiet_line_fields (g : Store) (omits : List String) (hk : SK)
    (l : List String) :
    l.filterMap (fun f =>
        if f ∈ omits then none
        else if f = "__ref__" then some (format3 hk.1)
        else some (g.get hk.2 f))
      = (l.filter (fun f => decide (f ∉ omits))).map
          (fun f => if f = "__ref__" then format3 hk.1 else g.get hk.2 f) := by
  induction l with
  | nil => simp
  | cons f rest ih =>
    by_cases hf : f ∈ omits
    · simp [hf, List.filter_cons, ih]
    · by_cases hr : f = "__ref__"
      · subst hr
        simp [hf, List.filter_cons, ih]
      · simp [hf, hr, List.filter_cons, ih]

/-! ### Claims -/

/-- C3: the stage chain of main applies the stages in the fixed priority
order trep, exact, near, closest, fuzzy — the order is a property of the
chain itself, not of the command line, whose flag order the parsed Args
record does not retain — and every enabled stage receives as its from_keys
restriction exactly the keys (scores discarded, via ex_keys) of the
current stream, i.e. of the previous enabled stage's output; disabled
stages pass the stream through unchanged. -/
theorem c3_stage_order (g : Store) (a : Args) (res0 : List SK) :
    run_stages g a res0 =
      Outcome.bind (stage_near g a (stage_exact g a (stage_trep g a res0))) (fun r3 =>
        Outcome.bind (stage_closest g a r3) (fun r4 =>
          Outcome.ok (stage_fuzzy g a r4)))
    ∧ (∀ r : List SK, ex_keys (some r) = some (r.map Prod.snd))
    ∧ (∀ (ts : List String) (r : List SK),
        stage_trep g { a with trep := some ts } r
          = g.trepGet (String.intercalate " " ts) a.trep_format (some (r.map Prod.snd)))
    ∧ (∀ (v : String) (r : List SK),
        stage_exact g { a with exact := some v } r
          = py_enum (g.getKeysWhere a.exact_property v (some (r.map Prod.snd))))
    ∧ (∀ (s : String) (r : List SK),
        stage_near g { a with near := some s } r
          = Outcome.bind (scan_coords g s) (fun coords =>
              Outcome.ok (sort_pairs (g.findNearPoint coords a.near_limit
                (!a.without_grid) (some (r.map Prod.snd))))))
    ∧ (∀ (s : String) (r : List SK),
        stage_closest g { a with closest := some s } r
          = Outcome.bind (scan_coords g s) (fun coords =>
              Outcome.ok (g.findClosestFromPoint coords a.closest_limit
                (!a.without_grid) (some (r.map Prod.snd)))))
    ∧ (∀ (q : String) (r : List SK),
        stage_fuzzy g { a with fuzzy := some q } r
          = g.fuzzyGet q a.fuzzy_property a.fuzzy_limit (some (r.map Prod.snd)))
    ∧ (∀ r : List SK, stage_trep g { a with trep := none } r = r)
    ∧ (∀ r : List SK, stage_exact g { a with exact := none } r = r)
    ∧ (∀ r : List SK, stage_near g { a with near := none } r = Outcome.ok r)
    ∧ (∀ r : List SK, stage_closest g { a with closest := none } r = Outcome.ok r)
    ∧ (∀ r : List SK, stage_fuzzy g { a with fuzzy := none } r = r) :=
  ⟨rfl, fun _ => rfl, fun _ _ => rfl, fun _ _ => rfl, fun _ _ => rfl,
   fun _ _ => rfl, fun _ _ => rfl, fun _ => rfl, fun _ => rfl,
   fun _ => rfl, fun _ => rfl, fun _ => rfl⟩

/-- C5: with truncation active the rendered cell is the first width
characters of the decoded value followed by trailing spaces up to width,
so it always holds exactly width decoded characters and consists of whole
characters of the value (never split bytes) plus spaces. -/
theorem c5_truncation_chars (s : List Char) (w : ℕ) :
    fixed_width s w (some w) = s.take w ++ List.replicate (w - min w s.length) ' '
    ∧ (fixed_width s w (some w)).length = w := by
  constructor
  · simp [fixed_width]
  · simp only [fixed_width, Option.getD_some, List.length_append,
      List.length_take, List.length_replicate]
    omega

/-- C6: the per-column width computed by display equals the clamp of the
terminal width divided by the result count plus one to the range 25..40,
and therefore always lies in that range. -/
theorem c6_width_clamp (W n : ℕ) (hn : 1 ≤ n) :
    display_lim W n = clampSpec (W / (n + 1)) 25 40
    ∧ 25 ≤ display_lim W n ∧ display_lim W n ≤ 40 := by
  unfold display_lim clampSpec
  omega

/-- C6 witness: a concrete 160-column terminal with two results. -/
theorem c6_width_clamp_witness :
    display_lim 160 2 = clampSpec (160 / 3) 25 40
    ∧ 25 ≤ display_lim 160 2 ∧ display_lim 160 2 ≤ 40 :=
  c6_width_clamp 160 2 (by decide)

/-- C8: the limiter truncates the materialized stream to its first limit
entries (a take, hence no reordering), an explicit limit applies in both
modes, and the default is 4 interactively and unlimited in quiet mode. -/
theorem c8_limiter (a : Args) (n : ℤ) (hn : 0 ≤ n) (xs : List SK) :
    eff_limit { a with limit := some n } = some n
    ∧ eff_limit { a with limit := none, quiet := true } = none
    ∧ eff_limit { a with limit := none, quiet := false } = some 4
    ∧ apply_limit (some n) xs = xs.take n.toNat
    ∧ apply_limit none xs = xs := by
  refine ⟨rfl, rfl, rfl, ?_, rfl⟩
  simp [apply_limit, py_take, hn]

/-- C8 witness: limit 2 over a three-entry stream. -/
theorem c8_limiter_witness :
    eff_limit { a1 with limit := some 2 } = some 2
    ∧ eff_limit { a1 with limit := none, quiet := true } = none
    ∧ eff_limit { a1 with limit := none, quiet := false } = some 4
    ∧ apply_limit (some 2) [((0:ℚ), "ORY"), ((1:ℚ), "CDG"), ((2:ℚ), "NCE")]
        = [((0:ℚ), "ORY"), ((1:ℚ), "CDG"), ((2:ℚ), "NCE")].take (2:ℤ).toNat
    ∧ apply_limit none [((0:ℚ), "ORY"), ((1:ℚ), "CDG"), ((2:ℚ), "NCE")]
        = [((0:ℚ), "ORY"), ((1:ℚ), "CDG"), ((2:ℚ), "NCE")] :=
  c8_limiter a1 2 (by decide) [((0:ℚ), "ORY"), ((1:ℚ), "CDG"), ((2:ℚ), "NCE")]

/-- C1 counterexample: on the worked example (keys ORY and CDG, no
stages, quiet mode) the stream reaching the renderers scores each key
with its input position — CDG carries score 1, not 0 — and with only the
name field shown the quiet renderer prints bare names, not score-caret
lines; showing the ref pseudo-field prints 0.000 then 1.000. -/
theorem c1_zero_stages_counterexample :
    run_stages g1 a1 (py_enum ["ORY", "CDG"])
      = Outcome.ok [((0:ℚ), "ORY"), ((1:ℚ), "CDG")]
    ∧ ((1:ℚ) ≠ 0)
    ∧ mainRun g1 a1 none none = Outcome.ok (Rendered.quiet ["Orly", "Roissy"])
    ∧ ["Orly", "Roissy"] ≠ ["0.000^Orly", "0.000^Roissy"]
    ∧ mainRun g1 a1r none none
        = Outcome.ok (Rendered.quiet ["0.000^Orly", "1.000^Roissy"])
    ∧ ["0.000^Orly", "1.000^Roissy"] ≠ ["0.000^Orly", "0.000^Roissy"] := by
  refine ⟨by decide, by decide, by decide, by decide, by decide, by decide⟩

/-- C1 (amended): with zero stages enabled the stage chain passes the
input stream through unchanged, so the final stream is the input keys in
input order, each scored with its 0-based input position (the enumerate
index); on the worked example the quiet renderer with only the name field
prints the two names in input order. -/
theorem c1_zero_stages (g : Store) (a : Args) (res0 : List SK)
    (h1 : a.trep = none) (h2 : a.exact = none) (h3 : a.near = none)
    (h4 : a.closest = none) (h5 : a.fuzzy = none) :
    run_stages g a res0 = Outcome.ok res0
    ∧ py_enum ["ORY", "CDG"] = [((0:ℚ), "ORY"), ((1:ℚ), "CDG")]
    ∧ mainRun g1 a1 none none = Outcome.ok (Rendered.quiet ["Orly", "Roissy"]) := by
  refine ⟨?_, by decide, by decide⟩
  simp [run_stages, h1, h2, h3, h4, h5, Outcome.bind]

/-- C1 witness: the amended statement instantiated on the worked example
itself. -/
theorem c1_zero_stages_witness :
    run_stages g1 a1 (py_enum ["ORY", "CDG"])
      = Outcome.ok (py_enum ["ORY", "CDG"])
    ∧ py_enum ["ORY", "CDG"] = [((0:ℚ), "ORY"), ((1:ℚ), "CDG")]
    ∧ mainRun g1 a1 none none = Outcome.ok (Rendered.quiet ["Orly", "Roissy"]) :=
  c1_zero_stages g1 a1 (py_enum ["ORY", "CDG"]) rfl rfl rfl rfl rfl

/-- C2 counterexample: an absent key given as the near geocode argument
is resolved by scan_coords, which warns and then exits with status 1 —
the run aborts before rendering, contradicting that an absent key never
aborts the run. -/
theorem c2_unknown_key_counterexample :
    scan_coords g1 "NOPE" = Outcome.err ErrKind.unknown_key
    ∧ mainRun g1 a2 none none = Outcome.err ErrKind.unknown_key := by
  refine ⟨by decide, by decide⟩

/-- C2 (amended): a key found absent at render time is warned about,
removed, and the run continues to a rendered result — once validation and
the stage chain succeed the run never aborts — but an absent key supplied
as the geocode argument of a near or closest stage makes scan_coords warn
and exit with status 1. -/
theorem c2_unknown_key (g : Store) (a : Args) (sk : Option (List String))
    (probe : Option (ℕ × ℕ)) (res : List SK) (s : String)
    (hv : validate g a = none)
    (hr : run_stages g a (start_res g a sk) = Outcome.ok res)
    (hpf : parse_all (geo_tokens s) = none)
    (hmem : g.contains s = false) :
    (∃ r, mainRun g a sk probe = Outcome.ok r)
    ∧ scan_coords g s = Outcome.err ErrKind.unknown_key := by
  constructor
  · simp only [mainRun, hv, hr, Outcome.bind]
    by_cases hq : a.quiet
    · rw [if_pos hq]
      exact ⟨_, rfl⟩
    · rw [if_neg hq]
      exact ⟨_, rfl⟩
  · rw [scan_coords, hpf, if_pos hmem]

/-- C2 witness: the worked example run succeeds end to end while the
absent key NOPE aborts scan_coords. -/
theorem c2_unknown_key_witness :
    (∃ r, mainRun g1 a1 none none = Outcome.ok r)
    ∧ scan_coords g1 "NOPE" = Outcome.err ErrKind.unknown_key :=
  c2_unknown_key g1 a1 none none [((0:ℚ), "ORY"), ((1:ℚ), "CDG")] "NOPE"
    (by decide) (by decide) (by decide) (by decide)

/-- C4 counterexample: with exactly one result the truncation bound
becomes the 1000-character sentinel, not no truncation at all — a
1001-character name is rendered as its first 1000 characters, so the full
value is not shown for every value. -/
theorem c4_single_result_counterexample :
    (g2.get "K" "name").toList = List.replicate 1001 'a'
    ∧ ((display g2 [((0:ℚ), "K")] [] ["name"] [] 160).getD []).map Row.cells
        = [[List.replicate 1000 'a']]
    ∧ List.replicate (1000 : ℕ) 'a' ≠ List.replicate 1001 'a' := by
  have hfw : fixed_width longName.toList 40 none = List.replicate 1000 'a' := by
    show fixed_width (List.replicate 1001 'a') 40 none = _
    rw [fixed_width]
    simp only [Option.getD_none, List.take_replicate, List.length_replicate]
    norm_num
  refine ⟨rfl, ?_, ?_⟩
  · have h1 : ((display g2 [((0:ℚ), "K")] [] ["name"] [] 160).getD []).map Row.cells
        = [[fixed_width longName.toList 40 none]] := rfl
    rw [h1, hfw]
  · intro h
    have hlen := congrArg List.length h
    rw [List.length_replicate, List.length_replicate] at hlen
    omega

/-- C4 (amended): with exactly one result display disables the
width-based truncation, which fixed_width replaces by a 1000-character
bound: every value of at most 1000 decoded characters is shown in full
(padded to the column width), and longer values are cut at 1000
characters regardless of terminal width. -/
theorem c4_single_result (s : List Char) (lim lim2 : ℕ)
    (hs : s.length ≤ 1000) :
    display_truncate 1 lim2 = none
    ∧ fixed_width s lim none = s ++ List.replicate (lim - s.length) ' ' := by
  refine ⟨rfl, ?_⟩
  simp [fixed_width, List.take_of_length_le hs]

/-- C4 witness: a one-character value in a 25-wide column. -/
theorem c4_single_result_witness :
    display_truncate 1 40 = none
    ∧ fixed_width ['a'] 25 none = ['a'] ++ List.replicate (25 - 1) ' ' :=
  c4_single_result ['a'] 25 40 (by decide)

/-- C7: a geocode argument whose comma tokens all parse as floats but do
not number exactly two makes scan_coords print the geocode format error
and exit with status 1, whatever the store holds — the argument is never
tried as a key — and the whole run exits with that error before any
result is rendered. -/
theorem c7_geocode_format (g : Store) (a : Args) (sk : Option (List String))
    (probe : Option (ℕ × ℕ)) (s : String)
    (hp : (parse_all (geo_tokens s)).isSome)
    (hl : (geo_tokens s).length ≠ 2)
    (hnear : a.near = some s)
    (ht : a.trep = none) (he : a.exact = none) (hf : a.fuzzy = none)
    (hg : g.hasGeoSupport = true)
    (hfl : (a.shows ++ a.omits).all
      (fun f => decide (f ∈ "__ref__" :: g.fields)) = true) :
    scan_coords g s = Outcome.err ErrKind.geocode_format
    ∧ mainRun g a sk probe = Outcome.err ErrKind.geocode_format := by
  obtain ⟨qs, hqs⟩ := Option.isSome_iff_exists.mp hp
  have hlen : qs.length ≠ 2 := by
    rw [parse_all_length _ _ hqs]
    exact hl
  have hscan : scan_coords g s = Outcome.err ErrKind.geocode_format := by
    rw [scan_coords, hqs]
    match qs, hlen with
    | [], _ => rfl
    | [x], _ => rfl
    | [x, y], h => exact absurd rfl h
    | x :: y :: z :: rest, _ => rfl
  refine ⟨hscan, ?_⟩
  have hfl2 : (∀ x ∈ a.shows, x = "__ref__" ∨ x ∈ g.fields)
      ∧ (∀ x ∈ a.omits, x = "__ref__" ∨ x ∈ g.fields) := by
    simpa [List.all_append, List.mem_cons] using hfl
  have hv : validate g a = none := by
    simp [validate, ht, he, hf, hg]
    constructor
    · intro x hx hne
      rcases hfl2.1 x hx with h | h
      · exact absurd h hne
      · exact h
    · intro x hx hne
      rcases hfl2.2 x hx with h | h
      · exact absurd h hne
      · exact h
  simp only [mainRun, hv]
  simp [run_stages, ht, he, hnear, hscan, Outcome.bind]

/-- C7 witness: the malformed geocode 48.85,2.35,1 of the specification
example. -/
theorem c7_geocode_format_witness :
    scan_coords g1 "48.85,2.35,1" = Outcome.err ErrKind.geocode_format
    ∧ mainRun g1 a3 none none = Outcome.err ErrKind.geocode_format :=
  c7_geocode_format g1 a3 none none "48.85,2.35,1"
    (by decide) (by decide) rfl rfl rfl rfl rfl (by decide)

/-- C9: the emphasized field set of a run is exactly the synthetic
identifier, plus the exact property when the exact stage is requested,
plus the fuzzy property when the fuzzy stage is requested; and a table
row drawn in the emphasis style always names a field of that set. -/
theorem c9_important_fields (a : Args) (f : String) (g : Store)
    (lot : List SK) (omits shows : List String) (c lim : ℕ)
    (tr : Option ℕ) (row : Row)
    (hrow : row ∈ display_rows g lot omits shows (important_of a) c lim tr)
    (hcol : row.col = rc_emph) :
    row.field ∈ important_of a
    ∧ (f ∈ important_of a ↔
        f = "__id__" ∨ (a.exact.isSome = true ∧ f = a.exact_property)
        ∨ (a.fuzzy.isSome = true ∧ f = a.fuzzy_property)) := by
  refine ⟨display_rows_emph g lot omits shows _ c lim tr row hrow hcol, ?_⟩
  cases he : a.exact <;> cases hfz : a.fuzzy <;>
    simp [important_of, he, hfz]

/-- C9 witness: displaying the identifier field of the ORY record with no
search stages emphasizes exactly the identifier row. -/
theorem c9_important_fields_witness :
    row9.field ∈ important_of a1
    ∧ ("name" ∈ important_of a1 ↔
        "name" = "__id__" ∨ (a1.exact.isSome = true ∧ "name" = a1.exact_property)
        ∨ (a1.fuzzy.isSome = true ∧ "name" = a1.fuzzy_property)) :=
  c9_important_fields a1 "name" g1 [((0:ℚ), "ORY")] [] ["__id__"] 0 25 none
    row9 (by decide) rfl

/-- C10: with no shown fields requested, the table renderer's rows and
the quiet renderer's per-line fields both run over the ref pseudo-field
followed by the store fields in declared order, with exactly the omitted
fields removed — the two renderers agree on the default field list. -/
theorem c10_default_fields (g : Store) (lot : List SK)
    (omits imp : List String) (W : ℕ) (h : lot ≠ []) :
    (display g lot omits [] imp W).map (fun rows => rows.map Row.field)
      = some (("__ref__" :: g.fields).filter (fun f => decide (f ∉ omits)))
    ∧ display_quiet g lot omits []
      = (lot.filter (fun hk => g.contains hk.2)).map (fun hk =>
          String.intercalate "^"
            ((("__ref__" :: g.fields).filter (fun f => decide (f ∉ omits))).map
              (fun f => if f = "__ref__" then format3 hk.1 else g.get hk.2 f))) := by
  constructor
  · simp [display, h, display_rows_fields]
  · simp only [display_quiet, if_true]
    refine List.map_congr_left (fun hk _ => ?_)
    rw [quiet_line_fields]

/-- C10 witness: the default field lists of the two renderers on the
concrete two-airport store. -/
theorem c10_default_fields_witness :
    (display g1 [((0:ℚ), "ORY")] ["name"] [] [] 160).map
        (fun rows => rows.map Row.field)
      = some (("__ref__" :: g1.fields).filter (fun f => decide (f ∉ ["name"])))
    ∧ display_quiet g1 [((0:ℚ), "ORY")] ["name"] []
      = ([((0:ℚ), "ORY")].filter (fun hk => g1.contains hk.2)).map (fun hk =>
          String.intercalate "^"
            ((("__ref__" :: g1.fields).filter (fun f => decide (f ∉ ["name"]))).map
              (fun f => if f = "__ref__" then format3 hk.1 else g1.get hk.2 f))) :=
  c10_default_fields g1 [((0:ℚ), "ORY")] ["name"] [] 160 (by decide)

end GeoBaseMain
